import Mathlib

/-!
Verification of the ai-cli core: command risk classifier, permission
pattern matcher, permission manager, settings merge, SSE stream processor,
API retry wrapper and Copilot token cache, shallowly embedded from the Go
source (internal/executor, internal/settings, internal/api, internal/auth).
-/

set_option maxRecDepth 4000

/-! ## Regular expressions (embedding of Go regexp matching)

The Go source matches commands against `regexp` patterns.  We embed the
patterns as an explicit regex AST and match with Brzozowski derivatives.
`cls` matches a single character satisfying a predicate.  -/

inductive Re where
  | emp
  | eps
  | cls (p : Char → Bool)
  | seq (a b : Re)
  | alt (a b : Re)
  | star (a : Re)

/-- Smart sequencing used by the derivative, pruning dead branches. -/
def Re.sseq (a b : Re) : Re :=
  match a, b with
  | .emp, _ => .emp
  | _, .emp => .emp
  | .eps, b => b
  | a, .eps => a
  | a, b => .seq a b

/-- Smart alternation used by the derivative, pruning dead branches. -/
def Re.salt (a b : Re) : Re :=
  match a, b with
  | .emp, b => b
  | a, .emp => a
  | a, b => .alt a b

def Re.nullable : Re → Bool
  | .emp => false
  | .eps => true
  | .cls _ => false
  | .seq a b => a.nullable && b.nullable
  | .alt a b => a.nullable || b.nullable
  | .star _ => true

def Re.deriv : Re → Char → Re
  | .emp, _ => .emp
  | .eps, _ => .emp
  | .cls p, c => if p c then .eps else .emp
  | .seq a b, c =>
      if a.nullable then Re.salt (Re.sseq (a.deriv c) b) (b.deriv c)
      else Re.sseq (a.deriv c) b
  | .alt a b, c => Re.salt (a.deriv c) (b.deriv c)
  | .star a, c => Re.sseq (a.deriv c) (.star a)

/-- Does the regex match some prefix of the character list? -/
def Re.prefixMatch (r : Re) : List Char → Bool
  | [] => r.nullable
  | c :: rest => r.nullable || (r.deriv c).prefixMatch rest

/-- Unanchored matching, as Go regexp MatchString: the regex matches some
substring of the input. -/
def Re.matchString (r : Re) (s : List Char) : Bool :=
  s.tails.any (fun t => r.prefixMatch t)

/-- Anchored matching of the entire input (regexes of shape to-to-end, as
built by matchGlobPattern: the pattern is wrapped in anchors). -/
def Re.fullMatch (r : Re) (s : List Char) : Bool :=
  (s.foldl Re.deriv r).nullable

/-! ### Regex construction helpers -/

/-- Go regexp character class spaces: in RE2 a backslash-s stands for
tab, newline, form feed, carriage return and space. -/
def reSpace (c : Char) : Bool :=
  c = '\t' || c = '\n' || c = '\x0C' || c = '\r' || c = ' '

/-- The regexp dot: any character except newline. -/
def reDot (c : Char) : Bool := !(c = '\n')

/-- RE2 word characters (for word-boundary assertions): [0-9A-Za-z_]. -/
def wordChar (c : Char) : Bool := c.isAlpha || c.isDigit || c = '_'

def rchar (c : Char) : Re := .cls (fun x => x = c)

def rstr (s : String) : Re := s.data.foldr (fun c r => .seq (rchar c) r) .eps

def rplus (r : Re) : Re := .seq r (.star r)

def ropt (r : Re) : Re := .alt r .eps

def rcat (l : List Re) : Re := l.foldr .seq .eps

def ralts (l : List Re) : Re := l.foldr .alt .emp

def wsPlus : Re := rplus (.cls reSpace)

def wsStar : Re := .star (.cls reSpace)

def dotStar : Re := .star (.cls reDot)

/-! ### Word-boundary patterns

Five dangerous patterns have the form backslash-b word backslash-b.  For a
word made of word characters this means: the word occurs with no word
character directly before or after the occurrence. -/

def boundaryBefore : Option Char → Bool
  | none => true
  | some c => !wordChar c

def boundaryAfter : List Char → Bool
  | [] => true
  | c :: _ => !wordChar c

def containsWordAux (w : List Char) : Option Char → List Char → Bool
  | prev, [] =>
      boundaryBefore prev && w.isPrefixOf ([] : List Char)
        && boundaryAfter (List.drop w.length [])
  | prev, c :: rest =>
      (boundaryBefore prev && w.isPrefixOf (c :: rest)
        && boundaryAfter ((c :: rest).drop w.length))
      || containsWordAux w (some c) rest

/-- Embedding of the Go pattern backslash-b W backslash-b (unanchored),
for a word W consisting of word characters. -/
def containsWord (w : String) (s : List Char) : Bool :=
  containsWordAux w.data none s

/-! ### Go string primitives used by the classifier and matcher -/

/-- Characters trimmed by Go strings.TrimSpace / split by strings.Fields
(unicode.IsSpace restricted to the Latin-1 range, which covers shell
commands). -/
def goSpace (c : Char) : Bool :=
  c = '\t' || c = '\n' || c = '\x0B' || c = '\x0C' || c = '\r' || c = ' '
    || c = '\x85' || c = '\xA0'

/-- Go strings.TrimSpace. -/
def goTrimSpace (s : List Char) : List Char :=
  ((s.dropWhile goSpace).reverse.dropWhile goSpace).reverse

/-- Accumulator-based splitting for Go strings.Fields (acc holds the
current word reversed). -/
def goFieldsAux : List Char → List Char → List (List Char)
  | acc, [] => if acc = [] then [] else [acc.reverse]
  | acc, c :: rest =>
      if goSpace c then
        if acc = [] then goFieldsAux [] rest
        else acc.reverse :: goFieldsAux [] rest
      else goFieldsAux (c :: acc) rest

/-- Go strings.Fields: words of the string, split around whitespace runs. -/
def goFields (s : List Char) : List (List Char) := goFieldsAux [] s

/-! ## Command Risk Classifier (internal/executor/classifier.go) -/

inductive RiskLevel where
  | Safe
  | NeedsConfirm
  | Dangerous
deriving DecidableEq, Repr

/-- Safe read-only commands that can be auto-executed. -/
def safeCommands : List String :=
  ["ls", "cat", "pwd", "echo", "head", "tail", "grep", "find",
   "which", "whoami", "date", "wc", "sort", "uniq", "diff",
   "env", "printenv", "df", "du", "ps", "top", "tree",
   "file", "stat", "basename", "dirname", "realpath",
   "ping", "traceroute", "nslookup", "dig"]

/-- Safe command patterns (anchored at the start in the source). -/
def safePatterns : List Re :=
  [rcat [rstr "git", wsPlus,
     ralts [rstr "status", rstr "log", rstr "diff", rstr "branch", rstr "show", rstr "remote"]],
   rcat [rstr "npm", wsPlus,
     ralts [rstr "list", rstr "ls", rstr "view", rstr "info", rstr "outdated"]],
   rcat [rstr "pip", wsPlus, ralts [rstr "list", rstr "show", rstr "freeze"]],
   rcat [rstr "cargo", wsPlus, ralts [rstr "tree", rstr "search", rstr "check"]],
   rcat [rstr "go", wsPlus, ralts [rstr "list", rstr "version", rstr "env"]],
   rcat [rstr "docker", wsPlus, ralts [rstr "ps", rstr "images", rstr "inspect", rstr "logs"]],
   rcat [rstr "kubectl", wsPlus, ralts [rstr "get", rstr "describe", rstr "logs"]]]

/-- Dangerous command patterns, in source order.  Each entry is the
unanchored matcher of one compiled pattern. -/
def dangerousMatchers : List (List Char → Bool) :=
  [ -- rm -rf / or variations
    Re.matchString (rcat [rstr "rm", wsPlus,
      ropt (rcat [rchar '-', .star (.cls (fun c => c = 'r' || c = 'f')), wsPlus]),
      rchar '/']),
    -- Any sudo command
    containsWord "sudo",
    -- Switch user command
    containsWord "su",
    -- dd commands
    Re.matchString (rcat [rstr "dd", wsPlus, rstr "if="]),
    -- Format filesystem
    Re.matchString (rstr "mkfs"),
    -- Fork bomb
    Re.matchString (rstr ":()\x7b"),
    -- Pipe to shell
    Re.matchString (rcat [rstr "curl", dotStar, rchar '|', wsStar,
      ralts [rstr "sh", rstr "bash", rstr "zsh"]]),
    -- Pipe to shell
    Re.matchString (rcat [rstr "wget", dotStar, rchar '|', wsStar,
      ralts [rstr "sh", rstr "bash", rstr "zsh"]]),
    -- Write to disk device
    Re.matchString (rcat [rchar '>', wsStar, rstr "/dev/sd"]),
    -- Overly permissive chmod
    Re.matchString (rcat [rstr "chmod", dotStar, rstr "777"]),
    -- Recursive ownership change
    Re.matchString (rcat [rstr "chown", dotStar, rstr "-R", wsPlus]),
    -- Eval command (can execute arbitrary code)
    containsWord "eval",
    -- Source command (executes file content)
    containsWord "source",
    -- Exec command (replaces shell)
    containsWord "exec",
    -- Write to /etc directory
    Re.matchString (rcat [rchar '>', wsStar, rstr "/etc/"]),
    -- rm -rf with home or variable
    Re.matchString (rcat [rstr "rm", wsPlus, rstr "-rf", wsPlus,
      .cls (fun c => c = '~' || c = '$')]),
    -- Background with hidden output (suspicious)
    Re.matchString (rcat [rchar '>', wsStar, rstr "/dev/null", wsStar,
      rstr "2>&1", wsStar, rchar '&']),
    -- Decode base64 in pipeline (often malicious)
    Re.matchString (rcat [rchar '|', dotStar, rstr "base64", dotStar, rstr "-d"]),
    -- Python exec in command line
    Re.matchString (rcat [rstr "python", dotStar, rstr "-c", dotStar, rstr "exec"]),
    -- Perl one-liner execution
    Re.matchString (rcat [rstr "perl", dotStar, rstr "-e"]),
    -- Ruby one-liner execution
    Re.matchString (rcat [rstr "ruby", dotStar, rstr "-e"])]

/-- commandChainingPattern: one or two of the characters semicolon,
ampersand, pipe. -/
def commandChainingPattern : Re :=
  .seq (.cls (fun c => c = ';' || c = '&' || c = '|'))
    (ropt (.cls (fun c => c = ';' || c = '&' || c = '|')))

/-- ClassifyCommand determines the risk level of a shell command. -/
def ClassifyCommand (cmd : String) : RiskLevel :=
  let c := goTrimSpace cmd.data
  if c = [] then .Dangerous
  -- Check dangerous patterns first (highest priority)
  else if dangerousMatchers.any (fun m => m c) then .Dangerous
  -- Check for command chaining - if present, require confirmation
  else if commandChainingPattern.matchString c then .NeedsConfirm
  else
    -- Extract first word (command name)
    match goFields c with
    | [] => .Dangerous
    | firstWord :: _ =>
      -- Check if it is a known safe command
      if safeCommands.any (fun w => firstWord = w.data) then .Safe
      -- Check safe patterns
      else if safePatterns.any (fun r => r.prefixMatch c) then .Safe
      -- Default: needs confirmation for anything that modifies state
      else .NeedsConfirm

/-! ## Permission rules and settings (internal/settings) -/

/-- A single permission rule with glob pattern. -/
structure PermissionRule where
  pattern : String
  tool : String
deriving DecidableEq, Repr

/-- Allow and deny rules. -/
structure Permissions where
  allow : List PermissionRule
  deny : List PermissionRule
deriving DecidableEq, Repr

/-- The application settings.  The session allowlist is in memory only
(a Go map of literal command strings, modeled as a list). -/
structure Settings where
  permissions : Permissions
  autoAllowSafeCommands : Bool
  dangerousEnabled : Bool
  sessionAllowlist : List String
deriving DecidableEq, Repr

/-- Settings with safe defaults. -/
def DefaultSettings : Settings :=
  { permissions := { allow := [], deny := [] }
    autoAllowSafeCommands := true
    dangerousEnabled := false
    sessionAllowlist := [] }

/-- Manager.mergeSettings: merges global and project settings.  The two
scopes are passed explicitly (the Go manager holds them as fields, the
project one nil when no project settings file is present). -/
def Manager.mergeSettings (global : Option Settings) (project : Option Settings) :
    Settings :=
  let merged := DefaultSettings
  -- Start with global settings
  let merged :=
    match global with
    | some g =>
        { merged with
          permissions :=
            { allow := merged.permissions.allow ++ g.permissions.allow
              deny := merged.permissions.deny ++ g.permissions.deny }
          autoAllowSafeCommands := g.autoAllowSafeCommands
          dangerousEnabled := g.dangerousEnabled }
    | none => merged
  -- Overlay project settings
  match project with
  | some p =>
      { merged with
        permissions :=
          { allow := merged.permissions.allow ++ p.permissions.allow
            deny := merged.permissions.deny ++ p.permissions.deny }
        -- Project can override behavior settings
        autoAllowSafeCommands := p.autoAllowSafeCommands
        dangerousEnabled := p.dangerousEnabled }
  | none => merged

/-! ## Pattern Matcher (internal/settings matcher) -/

inductive MatchResult where
  | NoMatch
  | Allow
  | Deny
deriving DecidableEq, Repr

/-- Index of the first occurrence of a character, Go strings.Index on a
one-character separator. -/
def indexOfChar (l : List Char) (c : Char) : Option Nat :=
  l.findIdx? (fun x => x = c)

/-- Index of the last occurrence of a character, Go strings.LastIndex. -/
def lastIndexOfChar (l : List Char) (c : Char) : Option Nat :=
  match indexOfChar l.reverse c with
  | some i => some (l.length - 1 - i)
  | none => none

/-- extractPatternFromTool extracts the inner pattern from
Tool-parenthesized patterns. -/
def extractPatternFromTool (pattern : List Char) : List Char :=
  match indexOfChar pattern '(', lastIndexOfChar pattern ')' with
  | some s, some e => if s < e then (pattern.drop (s + 1)).take (e - (s + 1)) else pattern
  | _, _ => pattern

/-- Go strings.SplitN(pattern, colon, 2). -/
def splitNColon2 (l : List Char) : List (List Char) :=
  match indexOfChar l ':' with
  | none => [l]
  | some i => [l.take i, l.drop (i + 1)]

/-- Go strings.TrimPrefix: remove the prefix once if present. -/
def goTrimPrefixOnce (s pre : List Char) : List Char :=
  if pre.isPrefixOf s then s.drop pre.length else s

/-- matchGlobPattern: glob converted to an anchored regex, all regex
metacharacters escaped except the star which becomes dot-star. -/
def matchGlobPattern (command pattern : List Char) : Bool :=
  Re.fullMatch (rcat (pattern.map (fun c => if c = '*' then dotStar else rchar c))) command

/-- matchColonPattern matches colon-scoped patterns. -/
def matchColonPattern (command pattern : List Char) : Bool :=
  match splitNColon2 pattern with
  | [pre, suffix] =>
    -- Command must start with the prefix followed by a space
    -- (or be exactly the prefix)
    if !((pre ++ [' ']).isPrefixOf command) && !(command = pre) then false
    else
      -- Get the rest of the command after prefix and space
      let rest := goTrimPrefixOnce command pre
      let rest := goTrimPrefixOnce rest [' ']
      -- Wildcard: match anything (including empty - just the command itself)
      if suffix = ['*'] then true
      -- Specific subcommand
      else if suffix.contains '*' then matchGlobPattern rest suffix
      else
        -- Exact subcommand match
        match goFields rest with
        | w :: _ => if w = suffix then true else rest = suffix
        | [] => rest = suffix
  | _ => false

/-- PatternMatcher.Match checks if a command matches a permission pattern. -/
def PatternMatcher.Match (command : String) (rule : PermissionRule) : Bool :=
  let pattern := rule.pattern.data
  let command := goTrimSpace command.data
  -- Handle tool-qualified patterns
  let pattern :=
    if !(rule.tool = "") && pattern.contains '(' then extractPatternFromTool pattern
    else pattern
  -- Normalize pattern
  let pattern := goTrimSpace pattern
  -- Exact match
  if pattern = command then true
  -- Handle colon-style patterns
  else if pattern.contains ':' then matchColonPattern command pattern
  -- Handle glob-style patterns with star
  else if pattern.contains '*' then matchGlobPattern command pattern
  -- Prefix match (pattern without wildcard matches command prefix)
  else if (pattern ++ [' ']).isPrefixOf command || command = pattern then true
  else false

/-- PatternMatcher.MatchRules checks a command against a list of rules. -/
def PatternMatcher.MatchRules (command : String) (rules : List PermissionRule) : Bool :=
  rules.any (fun rule => PatternMatcher.Match command rule)

/-- PatternMatcher.CheckPermission: deny rules take precedence over allow
rules. -/
def PatternMatcher.CheckPermission (command : String) (permissions : Permissions) :
    MatchResult :=
  -- Check deny rules first (they take precedence)
  if PatternMatcher.MatchRules command permissions.deny then .Deny
  -- Check allow rules
  else if PatternMatcher.MatchRules command permissions.allow then .Allow
  else .NoMatch

/-! ## Permission Manager (internal/executor/permissions.go) -/

/-- The permission manager state: the in-memory session allowlist and the
merged settings obtained from the settings manager (GetMerged; none models
a nil merged settings pointer). -/
structure PermissionManager where
  sessionAllowed : List String
  merged : Option Settings
deriving DecidableEq, Repr

/-- PermissionManager.CheckPermission returns
(allowed, needsConfirm, reason). -/
def PermissionManager.CheckPermission (pm : PermissionManager) (cmd : String) :
    Bool × Bool × String :=
  match pm.merged with
  | none => (false, true, "Settings not loaded")
  | some merged =>
    -- Check session allowlist first
    if pm.sessionAllowed.contains cmd then (true, false, "Allowed for this session")
    -- Check persistent settings allowlist
    else if merged.sessionAllowlist.contains cmd then (true, false, "Previously approved")
    else
      -- Check deny rules first (they take precedence)
      let result := PatternMatcher.CheckPermission cmd merged.permissions
      if result = .Deny then (false, false, "Command blocked by deny rule")
      -- Check allow rules
      else if result = .Allow then (true, false, "Allowed by permission rule")
      else
        -- Classify command by risk level
        match ClassifyCommand cmd with
        | .Safe =>
            if merged.autoAllowSafeCommands then (true, false, "Safe read-only command")
            else (false, true, "Confirmation required")
        | .NeedsConfirm => (false, true, "Command may modify system state")
        | .Dangerous =>
            if merged.dangerousEnabled then
              (false, true, "Dangerous command (requires explicit confirmation)")
            else (false, false, "Dangerous command blocked (use /allow-dangerous to enable)")

/-! ## Chat API data model (internal/api/azure.go) -/

/-- The anonymous function struct inside ToolCall. -/
structure ToolCallFunction where
  name : String
  arguments : String
deriving DecidableEq, Repr

/-- A function call from the AI.  The index is used in streaming
responses. -/
structure ToolCall where
  id : String
  type : String
  index : Int
  function : ToolCallFunction
deriving DecidableEq, Repr

structure Usage where
  promptTokens : Int
  completionTokens : Int
  totalTokens : Int
deriving DecidableEq, Repr

/-- Streaming delta content. -/
structure Delta where
  role : String
  content : String
  toolCalls : List ToolCall
deriving DecidableEq, Repr

/-- A chat message. -/
structure Message where
  role : String
  content : String
  toolCalls : List ToolCall
  toolCallID : String
deriving DecidableEq, Repr

/-- A response choice. -/
structure Choice where
  index : Int
  delta : Delta
  message : Message
  finishReason : String
deriving DecidableEq, Repr

/-- The API response; streaming chunks decode into the same shape. -/
structure ChatResponse where
  id : String
  choices : List Choice
  usage : Usage
deriving DecidableEq, Repr

def emptyUsage : Usage := { promptTokens := 0, completionTokens := 0, totalTokens := 0 }

def emptyDelta : Delta := { role := "", content := "", toolCalls := [] }

def emptyMessage : Message := { role := "", content := "", toolCalls := [], toolCallID := "" }

/-- Concatenation of a list of strings (the value a sequence of appends
to a strings.Builder produces). -/
def concatAll : List String → String
  | [] => ""
  | s :: rest => s ++ concatAll rest

/-! ## SSE Stream Processor (internal/api/stream.go)

The processor reads the byte stream line by line; a line is blank, a
non-data line, a data line whose JSON fails to decode, the DONE sentinel,
or a data line decoding to a ChatResponse chunk.  JSON decoding is library
code, so the input is modeled at the granularity of these five outcomes.
The emitted field records the onChunk sink calls in order.  Context
cancellation aborts processing and is not part of the accumulation model. -/

inductive SSELine where
  | other
  | malformed
  | done
  | chunk (c : ChatResponse)

/-- The processor accumulator state.  The Go map from index to tool call
is modeled as an association list in insertion order with unique keys. -/
structure SSEProcessor where
  contentBuilder : String
  toolCallsMap : List (Int × ToolCall)
  finalUsage : Usage
  responseID : String
  emitted : List String
deriving DecidableEq, Repr

def NewSSEProcessor : SSEProcessor :=
  { contentBuilder := "", toolCallsMap := [], finalUsage := emptyUsage
    responseID := "", emitted := [] }

/-- Go map lookup on the association list. -/
def lookupTC : List (Int × ToolCall) → Int → Option ToolCall
  | [], _ => none
  | (k, tc) :: rest, idx => if k = idx then some tc else lookupTC rest idx

/-- Replace the arguments of the entry at the given index by appending the
new fragment (the map entry is a pointer in Go; appending mutates it in
place). -/
def appendArgs : List (Int × ToolCall) → Int → String → List (Int × ToolCall)
  | [], _, _ => []
  | (k, tc) :: rest, idx, args =>
      if k = idx then
        (k, { tc with function := { tc.function with
                arguments := tc.function.arguments ++ args } }) :: rest
      else (k, tc) :: appendArgs rest idx args

/-- Accumulate one streamed tool-call delta into the map: append to the
existing entry for the index, or create a new entry capturing id, type and
function name. -/
def accumToolCall (m : List (Int × ToolCall)) (tc : ToolCall) : List (Int × ToolCall) :=
  match lookupTC m tc.index with
  | some _ => appendArgs m tc.index tc.function.arguments
  | none =>
      m ++ [(tc.index,
        { id := tc.id, type := tc.type, index := tc.index
          function := { name := tc.function.name, arguments := tc.function.arguments } })]

/-- Capture the top-level response ID if present. -/
def captureID (p : SSEProcessor) (chunk : ChatResponse) : SSEProcessor :=
  if !(chunk.id = "") then { p with responseID := chunk.id } else p

/-- Send content chunk to the sink and accumulate. -/
def appendContent (p : SSEProcessor) (chunk : ChatResponse) : SSEProcessor :=
  match chunk.choices with
  | c0 :: _ =>
      if !(c0.delta.content = "") then
        { p with contentBuilder := p.contentBuilder ++ c0.delta.content
                 emitted := p.emitted ++ [c0.delta.content] }
      else p
  | [] => p

/-- Accumulate tool calls from a streaming chunk. -/
def accumToolCalls (p : SSEProcessor) (chunk : ChatResponse) : SSEProcessor :=
  match chunk.choices with
  | c0 :: _ =>
      if !(c0.delta.toolCalls = []) then
        { p with toolCallsMap := c0.delta.toolCalls.foldl accumToolCall p.toolCallsMap }
      else p
  | [] => p

/-- Capture usage from the final chunk. -/
def captureUsage (p : SSEProcessor) (chunk : ChatResponse) : SSEProcessor :=
  if chunk.usage.totalTokens > 0 then { p with finalUsage := chunk.usage } else p

/-- Processing of one decoded data chunk, in source order. -/
def processChunk (p : SSEProcessor) (chunk : ChatResponse) : SSEProcessor :=
  captureUsage (accumToolCalls (appendContent (captureID p chunk) chunk) chunk) chunk

/-- SSEProcessor.Process over the whole line stream: blank and non-data
lines and malformed JSON are skipped, the DONE sentinel (like EOF) stops
processing, chunks are accumulated. -/
def SSEProcessor.Process (p : SSEProcessor) : List SSELine → SSEProcessor
  | [] => p
  | .done :: _ => p
  | .chunk c :: rest => SSEProcessor.Process (processChunk p c) rest
  | .other :: rest => SSEProcessor.Process p rest
  | .malformed :: rest => SSEProcessor.Process p rest

/-- SSEProcessor.BuildResponse constructs the final ChatResponse from
accumulated data.  The Go loop runs i from 0 to the map size and keeps
the entries found. -/
def SSEProcessor.BuildResponse (p : SSEProcessor) : ChatResponse :=
  let toolCalls :=
    (List.range p.toolCallsMap.length).filterMap
      (fun i => lookupTC p.toolCallsMap (Int.ofNat i))
  let finishReason := if toolCalls.length > 0 then "tool_calls" else "stop"
  { id := p.responseID
    choices :=
      [{ index := 0
         delta := emptyDelta
         message :=
           { role := "assistant", content := p.contentBuilder
             toolCalls := toolCalls, toolCallID := "" }
         finishReason := finishReason }]
    usage := p.finalUsage }

/-! ### Specification helpers for the stream processor -/

/-- The content delta a chunk contributes (first choice, nonempty). -/
def chunkContent (c : ChatResponse) : List String :=
  match c.choices with
  | c0 :: _ => if !(c0.delta.content = "") then [c0.delta.content] else []
  | [] => []

/-- All content deltas of a line stream in arrival order, up to the DONE
sentinel. -/
def contentDeltas : List SSELine → List String
  | [] => []
  | .done :: _ => []
  | .chunk c :: rest => chunkContent c ++ contentDeltas rest
  | .other :: rest => contentDeltas rest
  | .malformed :: rest => contentDeltas rest

/-- The tool-call deltas a chunk contributes (first choice). -/
def chunkToolCalls (c : ChatResponse) : List ToolCall :=
  match c.choices with
  | c0 :: _ => c0.delta.toolCalls
  | [] => []

/-- The tool-call argument fragments delivered for one index, in delta
order, up to the DONE sentinel. -/
def fragsAt (idx : Int) : List SSELine → List ToolCall
  | [] => []
  | .done :: _ => []
  | .chunk c :: rest =>
      (chunkToolCalls c).filter (fun tc => tc.index = idx) ++ fragsAt idx rest
  | .other :: rest => fragsAt idx rest
  | .malformed :: rest => fragsAt idx rest

/-- Folding a fragment into the accumulated entry for its index, as
accumToolCall does for that index. -/
def applyFrag (cur : Option ToolCall) (tc : ToolCall) : Option ToolCall :=
  match cur with
  | some existing =>
      some { existing with function := { existing.function with
               arguments := existing.function.arguments ++ tc.function.arguments } }
  | none =>
      some { id := tc.id, type := tc.type, index := tc.index
             function := { name := tc.function.name, arguments := tc.function.arguments } }

def mergeFrags (cur : Option ToolCall) (fs : List ToolCall) : Option ToolCall :=
  fs.foldl applyFrag cur

/-! ## Retry layer (internal/api/retry.go) -/

/-- Go errors as seen by the retry wrapper: typed API errors carrying a
status code, other errors, the context-cancelled error, and the wrapper
error produced when the attempt budget is exhausted. -/
inductive GoError where
  | apiError (statusCode : Int) (message : String)
  | otherError (message : String)
  | cancelledError
  | maxRetryExceeded (last : Option GoError)
deriving Repr

def MaxAPIRetryAttempts : Nat := 3

/-- HTTP status codes that should trigger a retry for AI API calls. -/
def RetryableStatusCodes : List Int := [429, 503, 504, 502, 500]

def ShouldRetryAPICall (statusCode : Int) : Bool :=
  RetryableStatusCodes.contains statusCode

/-- The retry loop.  The wrapped function is modeled as a map from the
zero-based call number to that call's outcome; the loop returns the Go
result together with the number of calls made.  The context is a constant
cancellation flag; the backoff sleep itself is timing and not modeled. -/
def withRetryLoop (cancelled : Bool) (fn : Nat → Except GoError α) :
    Nat → Nat → Option GoError → Except GoError α × Nat
  | calls, 0, lastErr => (.error (.maxRetryExceeded lastErr), calls)
  | calls, fuel + 1, _lastErr =>
    -- Check for context cancellation
    if cancelled then (.error .cancelledError, calls)
    else
      match fn calls with
      | .ok v => (.ok v, calls + 1)
      | .error (.apiError sc msg) =>
          -- Check if error is retryable
          if ShouldRetryAPICall sc then
            withRetryLoop cancelled fn (calls + 1) fuel (some (.apiError sc msg))
          -- Non-retryable error, return immediately
          else (.error (.apiError sc msg), calls + 1)
      -- Non-API error, do not retry
      | .error e => (.error e, calls + 1)

/-- WithRetry executes a function with retry logic for transient
failures. -/
def WithRetry (cancelled : Bool) (fn : Nat → Except GoError α) :
    Except GoError α × Nat :=
  withRetryLoop cancelled fn 0 MaxAPIRetryAttempts none

/-! ## Copilot token manager (internal/auth) -/

/-- The response from the Copilot token endpoint. -/
structure CopilotTokenResponse where
  token : String
  expiresAt : Int
  refreshIn : Int
deriving DecidableEq, Repr

/-- The token manager's credential state: cached token and its expiry in
epoch seconds (the Go zero time for an absent credential). -/
structure TokenManager where
  copilotToken : String
  expiresAt : Int
deriving DecidableEq, Repr

/-- refreshToken fetches a new Copilot token from the GitHub API.  The
HTTP exchange is external; its outcome is the fetch argument.  Returns the
Go result, the updated state, and the number of remote calls made. -/
def TokenManager.refreshToken (now : Int) (fetch : Except GoError CopilotTokenResponse)
    (tm : TokenManager) : Except GoError String × TokenManager × Nat :=
  -- Double-check after acquiring write lock
  if !(tm.copilotToken = "") ∧ now + 60 < tm.expiresAt then (.ok tm.copilotToken, tm, 0)
  else
    match fetch with
    | .error e => (.error e, tm, 1)
    | .ok r => (.ok r.token, { copilotToken := r.token, expiresAt := r.expiresAt }, 1)

/-- GetCopilotToken returns a valid Copilot token, refreshing if
necessary.  The token is still valid when the current time plus a
60-second buffer is before the expiry. -/
def TokenManager.GetCopilotToken (now : Int) (fetch : Except GoError CopilotTokenResponse)
    (tm : TokenManager) : Except GoError String × TokenManager × Nat :=
  if !(tm.copilotToken = "") ∧ now + 60 < tm.expiresAt then (.ok tm.copilotToken, tm, 0)
  -- Need to refresh
  else TokenManager.refreshToken now fetch tm

/-! ## Claim theorems: classifier and permissions -/

/-- Claim C1: every command whose trimmed form matches one of the
classifier's dangerous regular-expression patterns is classified
Dangerous, regardless of chaining operators or a safe first token; in
particular the chained command (git status followed by rm -rf /) is
Dangerous. -/
theorem classify_dangerous_pattern_priority :
    (∀ cmd : String,
      dangerousMatchers.any (fun m => m (goTrimSpace cmd.data)) = true →
      ClassifyCommand cmd = .Dangerous)
    ∧ ClassifyCommand "git status; rm -rf /" = .Dangerous := by
  constructor
  · intro cmd h
    simp only [ClassifyCommand, h]
    split <;> simp
  · decide

theorem classify_dangerous_pattern_priority_witness :
    dangerousMatchers.any (fun m => m (goTrimSpace ("rm -rf /").data)) = true
    ∧ ClassifyCommand "rm -rf /" = .Dangerous :=
  ⟨by decide, classify_dangerous_pattern_priority.1 "rm -rf /" (by decide)⟩

/-- Claim C4 counterexample: the command (echo sudo) has safe first token
echo and no chaining operator, yet is classified Dangerous (the sudo
word-boundary pattern matches), so it is not Safe as the claim states. -/
theorem classify_safe_token_counterexample :
    (goFields (goTrimSpace ("echo sudo").data)).head? = some ("echo").data
    ∧ safeCommands.contains "echo" = true
    ∧ commandChainingPattern.matchString (goTrimSpace ("echo sudo").data) = false
    ∧ ClassifyCommand "echo sudo" = .Dangerous := by
  refine ⟨by decide, by decide, by decide, by decide⟩

/-- Claim C4 (amended): every command whose first token is in the safe
allowlist, which contains no chaining operator, and which matches no
dangerous pattern is classified Safe; ls -la is Safe while
(ls -la semicolon rm x) is NeedsConfirm. -/
theorem classify_safe_token_amended :
    (∀ (cmd : String) (first : List Char) (rest : List (List Char)),
      dangerousMatchers.any (fun m => m (goTrimSpace cmd.data)) = false →
      commandChainingPattern.matchString (goTrimSpace cmd.data) = false →
      goFields (goTrimSpace cmd.data) = first :: rest →
      safeCommands.any (fun w => first = w.data) = true →
      ClassifyCommand cmd = .Safe)
    ∧ ClassifyCommand "ls -la" = .Safe
    ∧ ClassifyCommand "ls -la; rm x" = .NeedsConfirm := by
  refine ⟨?_, by decide, by decide⟩
  intro cmd first rest hd hc hf hs
  by_cases h1 : goTrimSpace cmd.data = []
  · rw [h1] at hf
    simp [goFields, goFieldsAux] at hf
  · simp [ClassifyCommand, h1, hd, hc, hf, hs]

theorem classify_safe_token_amended_witness :
    dangerousMatchers.any (fun m => m (goTrimSpace ("ls -la").data)) = false
    ∧ commandChainingPattern.matchString (goTrimSpace ("ls -la").data) = false
    ∧ goFields (goTrimSpace ("ls -la").data) = [("ls").data, ("-la").data]
    ∧ safeCommands.any (fun w => ("ls").data = w.data) = true
    ∧ ClassifyCommand "ls -la" = .Safe :=
  ⟨by decide, by decide, by decide, by decide,
    classify_safe_token_amended.1 "ls -la" ("ls").data [("-la").data]
      (by decide) (by decide) (by decide) (by decide)⟩

/-- Claim C3: deny rules take precedence over allow rules: whenever a
command matches some deny rule, the matcher's CheckPermission returns
Deny; with allow rule rm:* and deny rule (rm -rf *), the command
rm -rf /tmp is denied even though the allow rule also matches it. -/
theorem deny_rules_precedence :
    (∀ (cmd : String) (perms : Permissions),
      PatternMatcher.MatchRules cmd perms.deny = true →
      PatternMatcher.CheckPermission cmd perms = .Deny)
    ∧ PatternMatcher.CheckPermission "rm -rf /tmp"
        { allow := [{ pattern := "rm:*", tool := "Bash" }]
          deny := [{ pattern := "rm -rf *", tool := "Bash" }] } = .Deny
    ∧ PatternMatcher.MatchRules "rm -rf /tmp"
        [{ pattern := "rm:*", tool := "Bash" }] = true := by
  refine ⟨?_, by decide, by decide⟩
  intro cmd perms h
  simp [PatternMatcher.CheckPermission, h]

theorem deny_rules_precedence_witness :
    PatternMatcher.MatchRules "rm -rf /tmp"
      (Permissions.deny { allow := [{ pattern := "rm:*", tool := "Bash" }]
                          deny := [{ pattern := "rm -rf *", tool := "Bash" }] }) = true
    ∧ PatternMatcher.CheckPermission "rm -rf /tmp"
        { allow := [{ pattern := "rm:*", tool := "Bash" }]
          deny := [{ pattern := "rm -rf *", tool := "Bash" }] } = .Deny :=
  ⟨by decide, deny_rules_precedence.1 "rm -rf /tmp" _ (by decide)⟩

/-- Claim C9: merging the two persisted scopes unions rule lists with
project rules appended after global, and the boolean toggles take the
project's values exactly when project settings are present, the global
values otherwise. -/
theorem merge_settings_scopes (g : Settings) (project : Option Settings) :
    (Manager.mergeSettings (some g) project).permissions.allow
      = g.permissions.allow
        ++ (match project with | some p => p.permissions.allow | none => [])
    ∧ (Manager.mergeSettings (some g) project).permissions.deny
      = g.permissions.deny
        ++ (match project with | some p => p.permissions.deny | none => [])
    ∧ (Manager.mergeSettings (some g) project).autoAllowSafeCommands
      = (match project with
         | some p => p.autoAllowSafeCommands
         | none => g.autoAllowSafeCommands)
    ∧ (Manager.mergeSettings (some g) project).dangerousEnabled
      = (match project with | some p => p.dangerousEnabled | none => g.dangerousEnabled) := by
  cases project <;> simp [Manager.mergeSettings, DefaultSettings]

/-- Claim C10: CheckPermission never reports allowed and needsConfirm at
the same time: one of the two flags is always false, so every result is
allow-without-confirm, block-without-confirm, or require-confirmation. -/
theorem check_permission_no_allow_and_confirm (pm : PermissionManager) (cmd : String) :
    (PermissionManager.CheckPermission pm cmd).1 = false
    ∨ (PermissionManager.CheckPermission pm cmd).2.1 = false := by
  unfold PermissionManager.CheckPermission
  cases pm.merged with
  | none => simp
  | some merged =>
    dsimp only
    split
    · simp
    · split
      · simp
      · split
        · simp
        · split
          · simp
          · split <;> [skip; simp; skip] <;> split <;> simp

/-- Claim C2: a Dangerous-classified command not covered by the session
allowlist, previous approvals, or any deny/allow rule is never
auto-allowed: allowed is false, and needsConfirm equals the merged
dangerous-enabled toggle (confirmation when on, outright block when
off). -/
theorem dangerous_command_gating (pm : PermissionManager) (cmd : String) (s : Settings)
    (hm : pm.merged = some s)
    (h1 : pm.sessionAllowed.contains cmd = false)
    (h2 : s.sessionAllowlist.contains cmd = false)
    (h3 : PatternMatcher.CheckPermission cmd s.permissions = .NoMatch)
    (h4 : ClassifyCommand cmd = .Dangerous) :
    (PermissionManager.CheckPermission pm cmd).1 = false
    ∧ (PermissionManager.CheckPermission pm cmd).2.1 = s.dangerousEnabled := by
  unfold PermissionManager.CheckPermission
  rw [hm]
  simp only [h1, h2, h3, h4]
  cases h : s.dangerousEnabled <;> simp [h]

theorem dangerous_command_gating_witness :
    ({ sessionAllowed := [],
       merged := some { permissions := { allow := [], deny := [] }
                        autoAllowSafeCommands := true, dangerousEnabled := true
                        sessionAllowlist := [] } } : PermissionManager).merged
      = some { permissions := { allow := [], deny := [] }
               autoAllowSafeCommands := true, dangerousEnabled := true
               sessionAllowlist := [] }
    ∧ List.contains ([] : List String) "sudo ls" = false
    ∧ PatternMatcher.CheckPermission "sudo ls" { allow := [], deny := [] } = .NoMatch
    ∧ ClassifyCommand "sudo ls" = .Dangerous
    ∧ (PermissionManager.CheckPermission
        { sessionAllowed := [],
          merged := some { permissions := { allow := [], deny := [] }
                           autoAllowSafeCommands := true, dangerousEnabled := true
                           sessionAllowlist := [] } } "sudo ls").1 = false
    ∧ (PermissionManager.CheckPermission
        { sessionAllowed := [],
          merged := some { permissions := { allow := [], deny := [] }
                           autoAllowSafeCommands := true, dangerousEnabled := true
                           sessionAllowlist := [] } } "sudo ls").2.1 = true :=
  ⟨rfl, by decide, by decide, by decide,
    (dangerous_command_gating _ "sudo ls" _ rfl (by decide) (by decide)
      (by decide) (by decide)).1,
    (dangerous_command_gating _ "sudo ls" _ rfl (by decide) (by decide)
      (by decide) (by decide)).2⟩

/-! ## Claim theorems: retry layer and token cache -/

/-- Claim C7: the retry wrapper calls a function failing twice with
retryable status 429 and then succeeding exactly 3 times and returns the
success value; it calls a function failing with non-retryable status 400
exactly once and returns that error unchanged. -/
theorem with_retry_call_counts (α : Type) (v : α) (fn g : Nat → Except GoError α)
    (m0 m1 m : String)
    (h0 : fn 0 = .error (.apiError 429 m0))
    (h1 : fn 1 = .error (.apiError 429 m1))
    (h2 : fn 2 = .ok v)
    (hg : g 0 = .error (.apiError 400 m)) :
    WithRetry false fn = (.ok v, 3)
    ∧ WithRetry false g = (.error (.apiError 400 m), 1) := by
  have hr : ShouldRetryAPICall 429 = true := by decide
  have hn : ShouldRetryAPICall 400 = false := by decide
  constructor
  · show withRetryLoop false fn 0 3 none = (.ok v, 3)
    rw [show (3 : Nat) = 2 + 1 from rfl, withRetryLoop, h0]
    simp only [hr, if_true, if_false, Bool.false_eq_true]
    rw [show (2 : Nat) = 1 + 1 from rfl, withRetryLoop, h1]
    simp only [hr, if_true, if_false, Bool.false_eq_true]
    rw [show (1 : Nat) = 0 + 1 from rfl, withRetryLoop, h2]
    rfl
  · show withRetryLoop false g 0 3 none = (.error (.apiError 400 m), 1)
    rw [show (3 : Nat) = 2 + 1 from rfl, withRetryLoop, hg]
    simp [hn]

theorem with_retry_call_counts_witness :
    (fun n : Nat => if n < 2 then (.error (.apiError 429 "rate limited") : Except GoError Nat)
                    else .ok 7) 0 = .error (.apiError 429 "rate limited")
    ∧ (fun n : Nat => if n < 2 then (.error (.apiError 429 "rate limited") : Except GoError Nat)
                      else .ok 7) 1 = .error (.apiError 429 "rate limited")
    ∧ (fun n : Nat => if n < 2 then (.error (.apiError 429 "rate limited") : Except GoError Nat)
                      else .ok 7) 2 = .ok 7
    ∧ (fun _ : Nat => (.error (.apiError 400 "bad request") : Except GoError Nat)) 0
        = .error (.apiError 400 "bad request")
    ∧ WithRetry false (fun n : Nat =>
        if n < 2 then (.error (.apiError 429 "rate limited") : Except GoError Nat)
        else .ok 7) = (.ok 7, 3)
    ∧ WithRetry false (fun _ : Nat =>
        (.error (.apiError 400 "bad request") : Except GoError Nat))
      = (.error (.apiError 400 "bad request"), 1) := by
  refine ⟨rfl, rfl, rfl, rfl, ?_, ?_⟩
  · exact (with_retry_call_counts Nat 7
      (fun n : Nat => if n < 2 then (.error (.apiError 429 "rate limited") : Except GoError Nat)
                      else .ok 7)
      (fun _ : Nat => (.error (.apiError 400 "bad request") : Except GoError Nat))
      "rate limited" "rate limited" "bad request" rfl rfl rfl rfl).1
  · exact (with_retry_call_counts Nat 7
      (fun n : Nat => if n < 2 then (.error (.apiError 429 "rate limited") : Except GoError Nat)
                      else .ok 7)
      (fun _ : Nat => (.error (.apiError 400 "bad request") : Except GoError Nat))
      "rate limited" "rate limited" "bad request" rfl rfl rfl rfl).2

/-- Claim C8: a cached Copilot credential whose expiry lies more than 60
seconds in the future is returned with no refresh call; one whose expiry
is within 60 seconds of now, or which is absent (empty token), triggers
exactly one refresh call, and the newly fetched token is returned and
cached. -/
theorem copilot_token_cache (tm : TokenManager) (now : Int) (r : CopilotTokenResponse) :
    ((tm.copilotToken = "") = False → now + 60 < tm.expiresAt →
      ∀ fetch, TokenManager.GetCopilotToken now fetch tm = (.ok tm.copilotToken, tm, 0))
    ∧ (((tm.copilotToken = "") = False → (now + 60 < tm.expiresAt) = False) →
      TokenManager.GetCopilotToken now (.ok r) tm
        = (.ok r.token, { copilotToken := r.token, expiresAt := r.expiresAt }, 1)) := by
  constructor
  · intro hcached hv fetch
    unfold TokenManager.GetCopilotToken
    rw [if_pos]
    exact ⟨by simp [hcached], hv⟩
  · intro hexp
    unfold TokenManager.GetCopilotToken TokenManager.refreshToken
    rw [if_neg, if_neg]
    · intro hc
      have hne : (tm.copilotToken = "") = False := by
        by_contra hcontra
        simp only [eq_iff_iff, iff_false] at hcontra
        have : tm.copilotToken = "" := by
          by_contra h2
          exact hcontra (by simp [h2])
        simp [this] at hc
      rw [hexp hne] at hc
      exact hc.2
    · intro hc
      have hne : (tm.copilotToken = "") = False := by
        by_contra hcontra
        simp only [eq_iff_iff, iff_false] at hcontra
        have : tm.copilotToken = "" := by
          by_contra h2
          exact hcontra (by simp [h2])
        simp [this] at hc
      rw [hexp hne] at hc
      exact hc.2

theorem copilot_token_cache_witness :
    ((({ copilotToken := "tok", expiresAt := 1000 } : TokenManager).copilotToken = "") = False)
    ∧ (0 : Int) + 60 < ({ copilotToken := "tok", expiresAt := 1000 } : TokenManager).expiresAt
    ∧ ((((0 : Int) + 60 <
          ({ copilotToken := "tok", expiresAt := 30 } : TokenManager).expiresAt)) = False)
    ∧ TokenManager.GetCopilotToken 0
        (.ok { token := "fresh", expiresAt := 500, refreshIn := 25 })
        { copilotToken := "tok", expiresAt := 1000 }
      = (.ok "tok", { copilotToken := "tok", expiresAt := 1000 }, 0)
    ∧ TokenManager.GetCopilotToken 0
        (.ok { token := "fresh", expiresAt := 500, refreshIn := 25 })
        { copilotToken := "tok", expiresAt := 30 }
      = (.ok "fresh", { copilotToken := "fresh", expiresAt := 500 }, 1)
    ∧ TokenManager.GetCopilotToken 0
        (.ok { token := "fresh", expiresAt := 500, refreshIn := 25 })
        { copilotToken := "", expiresAt := 0 }
      = (.ok "fresh", { copilotToken := "fresh", expiresAt := 500 }, 1) := by
  refine ⟨by simp, by decide, by simp, ?_, ?_, ?_⟩
  · exact (copilot_token_cache { copilotToken := "tok", expiresAt := 1000 } 0
      { token := "fresh", expiresAt := 500, refreshIn := 25 }).1 (by simp) (by decide) _
  · exact (copilot_token_cache { copilotToken := "tok", expiresAt := 30 } 0
      { token := "fresh", expiresAt := 500, refreshIn := 25 }).2 (fun _ => by simp)
  · exact (copilot_token_cache { copilotToken := "", expiresAt := 0 } 0
      { token := "fresh", expiresAt := 500, refreshIn := 25 }).2 (by simp)

/-! ## Stream processor lemmas -/

theorem concatAll_append (a b : List String) :
    concatAll (a ++ b) = concatAll a ++ concatAll b := by
  induction a with
  | nil => simp [concatAll]
  | cons x xs ih => simp [concatAll, ih, String.append_assoc]

theorem captureID_contentBuilder (p : SSEProcessor) (c : ChatResponse) :
    (captureID p c).contentBuilder = p.contentBuilder := by
  unfold captureID; split <;> rfl

theorem captureID_toolCallsMap (p : SSEProcessor) (c : ChatResponse) :
    (captureID p c).toolCallsMap = p.toolCallsMap := by
  unfold captureID; split <;> rfl

theorem appendContent_contentBuilder (p : SSEProcessor) (c : ChatResponse) :
    (appendContent p c).contentBuilder = p.contentBuilder ++ concatAll (chunkContent c) := by
  cases hc : c.choices with
  | nil => simp [appendContent, chunkContent, hc, concatAll]
  | cons c0 tl =>
    by_cases h : c0.delta.content = "" <;>
      simp [appendContent, chunkContent, hc, h, concatAll]

theorem appendContent_toolCallsMap (p : SSEProcessor) (c : ChatResponse) :
    (appendContent p c).toolCallsMap = p.toolCallsMap := by
  cases hc : c.choices with
  | nil => simp [appendContent, hc]
  | cons c0 tl =>
    by_cases h : c0.delta.content = "" <;> simp [appendContent, hc, h]

theorem accumToolCalls_contentBuilder (p : SSEProcessor) (c : ChatResponse) :
    (accumToolCalls p c).contentBuilder = p.contentBuilder := by
  cases hc : c.choices with
  | nil => simp [accumToolCalls, hc]
  | cons c0 tl =>
    by_cases h : c0.delta.toolCalls = [] <;> simp [accumToolCalls, hc, h]

theorem accumToolCalls_toolCallsMap (p : SSEProcessor) (c : ChatResponse) :
    (accumToolCalls p c).toolCallsMap
      = (chunkToolCalls c).foldl accumToolCall p.toolCallsMap := by
  cases hc : c.choices with
  | nil => simp [accumToolCalls, chunkToolCalls, hc]
  | cons c0 tl =>
    by_cases h : c0.delta.toolCalls = [] <;>
      simp [accumToolCalls, chunkToolCalls, hc, h]

theorem captureUsage_contentBuilder (p : SSEProcessor) (c : ChatResponse) :
    (captureUsage p c).contentBuilder = p.contentBuilder := by
  unfold captureUsage; split <;> rfl

theorem captureUsage_toolCallsMap (p : SSEProcessor) (c : ChatResponse) :
    (captureUsage p c).toolCallsMap = p.toolCallsMap := by
  unfold captureUsage; split <;> rfl

theorem processChunk_contentBuilder (p : SSEProcessor) (c : ChatResponse) :
    (processChunk p c).contentBuilder = p.contentBuilder ++ concatAll (chunkContent c) := by
  unfold processChunk
  rw [captureUsage_contentBuilder, accumToolCalls_contentBuilder,
    appendContent_contentBuilder, captureID_contentBuilder]

theorem processChunk_toolCallsMap (p : SSEProcessor) (c : ChatResponse) :
    (processChunk p c).toolCallsMap
      = (chunkToolCalls c).foldl accumToolCall p.toolCallsMap := by
  unfold processChunk
  rw [captureUsage_toolCallsMap, accumToolCalls_toolCallsMap,
    appendContent_toolCallsMap, captureID_toolCallsMap]

theorem process_contentBuilder (lines : List SSELine) : ∀ p : SSEProcessor,
    (SSEProcessor.Process p lines).contentBuilder
      = p.contentBuilder ++ concatAll (contentDeltas lines) := by
  induction lines with
  | nil => intro p; simp [SSEProcessor.Process, contentDeltas, concatAll]
  | cons l rest ih =>
    intro p
    cases l with
    | other => simpa [SSEProcessor.Process, contentDeltas] using ih p
    | malformed => simpa [SSEProcessor.Process, contentDeltas] using ih p
    | done => simp [SSEProcessor.Process, contentDeltas, concatAll]
    | chunk c =>
      show (SSEProcessor.Process (processChunk p c) rest).contentBuilder = _
      rw [ih (processChunk p c), processChunk_contentBuilder]
      simp [contentDeltas, concatAll_append, String.append_assoc]

theorem lookupTC_appendArgs (m : List (Int × ToolCall)) (k idx : Int) (args : String) :
    lookupTC (appendArgs m k args) idx =
      if idx = k then
        match lookupTC m k with
        | some tc =>
            some { tc with function := { tc.function with
                     arguments := tc.function.arguments ++ args } }
        | none => none
      else lookupTC m idx := by
  induction m with
  | nil => simp [appendArgs, lookupTC]
  | cons e rest ih =>
    obtain ⟨k0, tc0⟩ := e
    rcases eq_or_ne idx k with hB | hB
    · subst hB
      rcases eq_or_ne k0 idx with hA | hA
      · subst hA
        simp [appendArgs, lookupTC]
      · simp [appendArgs, lookupTC, hA, ih]
    · rcases eq_or_ne k0 idx with hA | hA
      · subst hA
        simp [appendArgs, lookupTC, hB, Ne.symm hB]
      · by_cases hC : k0 = k
        · subst hC
          simp [appendArgs, lookupTC, hA, hB, Ne.symm hB]
        · simp [appendArgs, lookupTC, hA, hB, hC, ih]

theorem lookupTC_append_right (m : List (Int × ToolCall)) (k idx : Int) (tc : ToolCall)
    (h : lookupTC m idx = none) :
    lookupTC (m ++ [(k, tc)]) idx = if k = idx then some tc else none := by
  induction m with
  | nil => simp [lookupTC]
  | cons e rest ih =>
    obtain ⟨k0, tc0⟩ := e
    by_cases h0 : k0 = idx
    · simp [lookupTC, h0] at h
    · simp only [lookupTC, List.cons_append, if_neg h0] at h ⊢
      exact ih h

theorem lookupTC_append_left (m : List (Int × ToolCall)) (k idx : Int) (tc0 tc : ToolCall)
    (h : lookupTC m idx = some tc0) :
    lookupTC (m ++ [(k, tc)]) idx = some tc0 := by
  induction m with
  | nil => simp [lookupTC] at h
  | cons e rest ih =>
    obtain ⟨k1, tc1⟩ := e
    by_cases h0 : k1 = idx
    · simp_all [lookupTC]
    · simp only [lookupTC, List.cons_append, if_neg h0] at h ⊢
      exact ih h

theorem lookupTC_accumToolCall (m : List (Int × ToolCall)) (tc : ToolCall) (idx : Int) :
    lookupTC (accumToolCall m tc) idx =
      if tc.index = idx then applyFrag (lookupTC m idx) tc else lookupTC m idx := by
  unfold accumToolCall
  cases hm : lookupTC m tc.index with
  | some existing =>
    rw [lookupTC_appendArgs]
    by_cases h : tc.index = idx
    · subst h
      simp [hm, applyFrag]
    · simp [h, Ne.symm h]
  | none =>
    by_cases h : tc.index = idx
    · subst h
      rw [lookupTC_append_right m tc.index tc.index _ hm, hm]
      simp [applyFrag]
    · cases hidx : lookupTC m idx with
      | some tc1 =>
        rw [lookupTC_append_left m tc.index idx tc1 _ hidx]
        simp [h, hidx]
      | none =>
        rw [lookupTC_append_right m tc.index idx _ hidx]
        simp [h, hidx]

theorem lookupTC_foldl_accum (fs : List ToolCall) (idx : Int) :
    ∀ m : List (Int × ToolCall),
      lookupTC (fs.foldl accumToolCall m) idx
        = mergeFrags (lookupTC m idx) (fs.filter (fun tc => tc.index = idx)) := by
  induction fs with
  | nil => intro m; rfl
  | cons f rest ih =>
    intro m
    show lookupTC (rest.foldl accumToolCall (accumToolCall m f)) idx = _
    rw [ih (accumToolCall m f), lookupTC_accumToolCall]
    by_cases h : f.index = idx
    · simp [List.filter_cons, h, mergeFrags]
    · simp [List.filter_cons, h, mergeFrags]

theorem process_lookupTC (lines : List SSELine) (idx : Int) : ∀ p : SSEProcessor,
    lookupTC (SSEProcessor.Process p lines).toolCallsMap idx
      = mergeFrags (lookupTC p.toolCallsMap idx) (fragsAt idx lines) := by
  induction lines with
  | nil => intro p; rfl
  | cons l rest ih =>
    intro p
    cases l with
    | other => simpa [SSEProcessor.Process, fragsAt] using ih p
    | malformed => simpa [SSEProcessor.Process, fragsAt] using ih p
    | done => rfl
    | chunk c =>
      show lookupTC (SSEProcessor.Process (processChunk p c) rest).toolCallsMap idx = _
      rw [ih (processChunk p c), processChunk_toolCallsMap, lookupTC_foldl_accum]
      simp [fragsAt, mergeFrags, List.foldl_append]

theorem mergeFrags_some (fs : List ToolCall) : ∀ tc : ToolCall,
    mergeFrags (some tc) fs
      = some { tc with function := { tc.function with
          arguments := tc.function.arguments
            ++ concatAll (fs.map (fun t => t.function.arguments)) } } := by
  induction fs with
  | nil => intro tc; simp [mergeFrags, concatAll]
  | cons f rest ih =>
    intro tc
    show mergeFrags (applyFrag (some tc) f) rest = _
    rw [show applyFrag (some tc) f
        = some { tc with function := { tc.function with
            arguments := tc.function.arguments ++ f.function.arguments } } from rfl]
    rw [ih]
    simp [concatAll, String.append_assoc]

/-- Claim C5: processing any SSE line stream accumulates the message
content as the concatenation of all content deltas in arrival order, and
for each tool-call index the accumulated entry carries the id, type and
function name of the first fragment for that index and arguments equal to
the concatenation of all argument fragments for that index in delta order
(absent when no fragment arrived for the index). -/
theorem stream_accumulation (lines : List SSELine) :
    (SSEProcessor.Process NewSSEProcessor lines).contentBuilder
      = concatAll (contentDeltas lines)
    ∧ ∀ idx : Int,
        lookupTC (SSEProcessor.Process NewSSEProcessor lines).toolCallsMap idx
          = match fragsAt idx lines with
            | [] => none
            | f :: rest =>
                some { id := f.id, type := f.type, index := f.index
                       function :=
                         { name := f.function.name
                           arguments := f.function.arguments
                             ++ concatAll (rest.map (fun t => t.function.arguments)) } } := by
  constructor
  · rw [process_contentBuilder lines NewSSEProcessor]
    simp [NewSSEProcessor]
  · intro idx
    rw [process_lookupTC lines idx NewSSEProcessor]
    show mergeFrags none (fragsAt idx lines) = _
    cases fragsAt idx lines with
    | nil => rfl
    | cons f rest =>
      show mergeFrags (applyFrag none f) rest = _
      rw [show applyFrag none f
          = some { id := f.id, type := f.type, index := f.index
                   function := { name := f.function.name
                                 arguments := f.function.arguments } } from rfl]
      rw [mergeFrags_some]

example :
    (SSEProcessor.Process NewSSEProcessor
      [.chunk { id := "r1",
                choices := [{ index := 0
                              delta := { role := "", content := "Hel", toolCalls := [] }
                              message := emptyMessage, finishReason := "" }]
                usage := emptyUsage },
       .other,
       .chunk { id := "r1",
                choices := [{ index := 0
                              delta := { role := "", content := "lo", toolCalls :=
                                [{ id := "c1", type := "function", index := 0
                                   function := { name := "f", arguments := "a=" } }] }
                              message := emptyMessage, finishReason := "" }]
                usage := emptyUsage },
       .chunk { id := "r1",
                choices := [{ index := 0
                              delta := { role := "", content := "", toolCalls :=
                                [{ id := "", type := "", index := 0
                                   function := { name := "", arguments := "1" } }] }
                              message := emptyMessage, finishReason := "" }]
                usage := emptyUsage },
       .done]).contentBuilder = "Hello" := by decide

/-! ## BuildResponse lemmas -/

theorem lookupTC_none_iff (m : List (Int × ToolCall)) (idx : Int) :
    lookupTC m idx = none ↔ idx ∉ m.map Prod.fst := by
  induction m with
  | nil => simp [lookupTC]
  | cons e rest ih =>
    obtain ⟨k0, tc0⟩ := e
    by_cases h : k0 = idx
    · subst h
      simp [lookupTC]
    · simp [lookupTC, h, Ne.symm h, ih]

theorem lookupTC_some_iff_mem (m : List (Int × ToolCall)) (idx : Int) (tc : ToolCall)
    (h : (m.map Prod.fst).Nodup) :
    lookupTC m idx = some tc ↔ (idx, tc) ∈ m := by
  induction m with
  | nil => simp [lookupTC]
  | cons e rest ih =>
    obtain ⟨k0, tc0⟩ := e
    simp only [List.map_cons, List.nodup_cons] at h
    obtain ⟨hk0, hrest⟩ := h
    by_cases hk : k0 = idx
    · subst hk
      simp only [lookupTC, if_pos rfl, List.mem_cons]
      constructor
      · intro h1
        injection h1 with h1
        subst h1
        exact Or.inl rfl
      · intro h1
        rcases h1 with h2 | h2
        · rw [Prod.mk.injEq] at h2
          simp [h2.2]
        · exfalso
          exact hk0 (by simpa using List.mem_map_of_mem Prod.fst h2)
    · simp only [lookupTC, if_neg hk, List.mem_cons]
      rw [ih hrest]
      constructor
      · exact fun h1 => Or.inr h1
      · intro h1
        rcases h1 with h2 | h2
        · exfalso
          rw [Prod.mk.injEq] at h2
          exact hk h2.1.symm
        · exact h2

theorem appendArgs_map_fst (m : List (Int × ToolCall)) (k : Int) (args : String) :
    (appendArgs m k args).map Prod.fst = m.map Prod.fst := by
  induction m with
  | nil => rfl
  | cons e rest ih =>
    obtain ⟨k0, tc0⟩ := e
    by_cases h : k0 = k <;> simp [appendArgs, h, ih]

theorem appendArgs_mem_index (m : List (Int × ToolCall)) (k : Int) (args : String)
    (h : ∀ e ∈ m, (Prod.snd e).index = e.1) :
    ∀ e ∈ appendArgs m k args, (Prod.snd e).index = e.1 := by
  induction m with
  | nil => intro e he; simp [appendArgs] at he
  | cons e0 rest ih =>
    obtain ⟨k0, tc0⟩ := e0
    intro e he
    by_cases hk : k0 = k
    · rw [appendArgs, if_pos hk] at he
      rcases List.mem_cons.1 he with h1 | h1
      · subst h1
        exact h (k0, tc0) (List.mem_cons_self _ _)
      · exact h _ (List.mem_cons_of_mem _ h1)
    · rw [appendArgs, if_neg hk] at he
      rcases List.mem_cons.1 he with h1 | h1
      · subst h1
        exact h _ (List.mem_cons_self _ _)
      · exact ih (fun e2 he2 => h e2 (List.mem_cons_of_mem _ he2)) e h1

theorem accumToolCall_map_fst_nodup (m : List (Int × ToolCall)) (tc : ToolCall)
    (h : (m.map Prod.fst).Nodup) :
    ((accumToolCall m tc).map Prod.fst).Nodup := by
  unfold accumToolCall
  cases hm : lookupTC m tc.index with
  | some existing =>
    rw [appendArgs_map_fst]
    exact h
  | none =>
    have hnot := (lookupTC_none_iff m tc.index).1 hm
    simp [List.nodup_append, h, hnot]

theorem accumToolCall_mem_index (m : List (Int × ToolCall)) (tc : ToolCall)
    (h : ∀ e ∈ m, (Prod.snd e).index = e.1) :
    ∀ e ∈ accumToolCall m tc, (Prod.snd e).index = e.1 := by
  unfold accumToolCall
  cases lookupTC m tc.index with
  | some existing => exact appendArgs_mem_index m tc.index _ h
  | none =>
    intro e he
    rcases List.mem_append.1 he with h1 | h1
    · exact h e h1
    · have h2 : e = (tc.index,
        { id := tc.id, type := tc.type, index := tc.index
          function := { name := tc.function.name, arguments := tc.function.arguments } }) := by
        simpa using h1
      subst h2
      rfl

theorem foldl_accum_nodup (fs : List ToolCall) : ∀ m : List (Int × ToolCall),
    (m.map Prod.fst).Nodup → (((fs.foldl accumToolCall m)).map Prod.fst).Nodup := by
  induction fs with
  | nil => intro m h; exact h
  | cons f rest ih => intro m h; exact ih _ (accumToolCall_map_fst_nodup m f h)

theorem foldl_accum_index (fs : List ToolCall) : ∀ m : List (Int × ToolCall),
    (∀ e ∈ m, (Prod.snd e).index = e.1) →
    ∀ e ∈ fs.foldl accumToolCall m, (Prod.snd e).index = e.1 := by
  induction fs with
  | nil => intro m h; exact h
  | cons f rest ih => intro m h; exact ih _ (accumToolCall_mem_index m f h)

theorem process_toolCallsMap_nodup (lines : List SSELine) : ∀ p : SSEProcessor,
    (p.toolCallsMap.map Prod.fst).Nodup →
    ((SSEProcessor.Process p lines).toolCallsMap.map Prod.fst).Nodup := by
  induction lines with
  | nil => intro p h; exact h
  | cons l rest ih =>
    intro p h
    cases l with
    | other => exact ih p h
    | malformed => exact ih p h
    | done => exact h
    | chunk c =>
      refine ih (processChunk p c) ?_
      rw [processChunk_toolCallsMap]
      exact foldl_accum_nodup _ _ h

theorem process_toolCallsMap_index (lines : List SSELine) : ∀ p : SSEProcessor,
    (∀ e ∈ p.toolCallsMap, (Prod.snd e).index = e.1) →
    ∀ e ∈ (SSEProcessor.Process p lines).toolCallsMap, (Prod.snd e).index = e.1 := by
  induction lines with
  | nil => intro p h; exact h
  | cons l rest ih =>
    intro p h
    cases l with
    | other => exact ih p h
    | malformed => exact ih p h
    | done => exact h
    | chunk c =>
      refine ih (processChunk p c) ?_
      rw [processChunk_toolCallsMap]
      exact foldl_accum_index _ _ h

/-- Characterization of BuildResponse on an accumulator whose map has
distinct keys, each entry keyed by its tool call's index, all keys lying
below the map size. -/
theorem buildResponse_spec (p : SSEProcessor)
    (hnodup : (p.toolCallsMap.map Prod.fst).Nodup)
    (hidx : ∀ e ∈ p.toolCallsMap, (Prod.snd e).index = e.1)
    (hrange : ∀ e ∈ p.toolCallsMap, 0 ≤ e.1 ∧ e.1 < (p.toolCallsMap.length : Int)) :
    ∃ ch, (SSEProcessor.BuildResponse p).choices = [ch]
      ∧ ch.message.role = "assistant"
      ∧ ch.message.content = p.contentBuilder
      ∧ (∀ tc, tc ∈ ch.message.toolCalls ↔ ∃ k, (k, tc) ∈ p.toolCallsMap)
      ∧ ch.message.toolCalls.Pairwise (fun a b => a.index < b.index)
      ∧ ch.finishReason
          = (if p.toolCallsMap = [] then "stop" else "tool_calls") := by
  have hmem : ∀ tc, tc ∈ (List.range p.toolCallsMap.length).filterMap
      (fun i => lookupTC p.toolCallsMap (Int.ofNat i))
      ↔ ∃ k, (k, tc) ∈ p.toolCallsMap := by
    intro tc
    constructor
    · intro htc
      rcases List.mem_filterMap.1 htc with ⟨i, _, hsome⟩
      exact ⟨Int.ofNat i, (lookupTC_some_iff_mem _ _ _ hnodup).1 hsome⟩
    · intro htc
      rcases htc with ⟨k, hk⟩
      have h0 := (hrange _ hk).1
      have h1 := (hrange _ hk).2
      refine List.mem_filterMap.2 ⟨k.toNat, List.mem_range.2 (by omega), ?_⟩
      rw [show Int.ofNat k.toNat = k from by
        rw [Int.ofNat_eq_natCast]
        exact Int.toNat_of_nonneg h0]
      exact (lookupTC_some_iff_mem _ _ _ hnodup).2 hk
  refine ⟨{ index := 0, delta := emptyDelta
            message :=
              { role := "assistant", content := p.contentBuilder
                toolCalls := (List.range p.toolCallsMap.length).filterMap
                  (fun i => lookupTC p.toolCallsMap (Int.ofNat i))
                toolCallID := "" }
            finishReason :=
              if ((List.range p.toolCallsMap.length).filterMap
                  (fun i => lookupTC p.toolCallsMap (Int.ofNat i))).length > 0
              then "tool_calls" else "stop" },
        rfl, rfl, rfl, hmem, ?_, ?_⟩
  · refine List.Pairwise.filterMap _ ?_ (List.pairwise_lt_range _)
    intro i j hij x hx y hy
    rw [Option.mem_def] at hx hy
    have hxi := hidx _ ((lookupTC_some_iff_mem _ _ _ hnodup).1 hx)
    have hyi := hidx _ ((lookupTC_some_iff_mem _ _ _ hnodup).1 hy)
    show x.index < y.index
    rw [hxi, hyi]
    exact Int.ofNat_lt.2 hij
  · by_cases hempty : p.toolCallsMap = []
    · simp [hempty]
    · have hne : ((List.range p.toolCallsMap.length).filterMap
          (fun i => lookupTC p.toolCallsMap (Int.ofNat i))) ≠ [] := by
        rcases List.exists_mem_of_ne_nil _ hempty with ⟨e, he⟩
        intro hcontra
        have : e.2 ∈ (List.range p.toolCallsMap.length).filterMap
            (fun i => lookupTC p.toolCallsMap (Int.ofNat i)) := (hmem e.2).2 ⟨e.1, he⟩
        rw [hcontra] at this
        simp at this
      have hpos : ((List.range p.toolCallsMap.length).filterMap
          (fun i => lookupTC p.toolCallsMap (Int.ofNat i))).length > 0 :=
        List.length_pos.2 hne
      rw [if_pos hpos, if_neg hempty]

/-! ## Claim theorems: finalized response -/

/-- Claim C6 counterexample: a completed stream delivering a single
tool-call delta with index 1 (and the DONE sentinel) accumulates one tool
call, yet the finalized response has an empty tool_calls list and
finish_reason stop, because BuildResponse only looks up indices 0 to
size-1 of the accumulated map. -/
theorem build_response_noncontiguous_counterexample :
    (SSEProcessor.Process NewSSEProcessor
      [.chunk { id := "resp-1"
                choices := [{ index := 0
                              delta := { role := "", content := ""
                                         toolCalls :=
                                           [{ id := "call-1", type := "function", index := 1
                                              function := { name := "f", arguments := "x=1" } }] }
                              message := emptyMessage, finishReason := "" }]
                usage := emptyUsage },
       .done]).toolCallsMap ≠ []
    ∧ ((SSEProcessor.Process NewSSEProcessor
      [.chunk { id := "resp-1"
                choices := [{ index := 0
                              delta := { role := "", content := ""
                                         toolCalls :=
                                           [{ id := "call-1", type := "function", index := 1
                                              function := { name := "f", arguments := "x=1" } }] }
                              message := emptyMessage, finishReason := "" }]
                usage := emptyUsage },
       .done]).BuildResponse).choices.map (fun ch => ch.finishReason) = ["stop"]
    ∧ ((SSEProcessor.Process NewSSEProcessor
      [.chunk { id := "resp-1"
                choices := [{ index := 0
                              delta := { role := "", content := ""
                                         toolCalls :=
                                           [{ id := "call-1", type := "function", index := 1
                                              function := { name := "f", arguments := "x=1" } }] }
                              message := emptyMessage, finishReason := "" }]
                usage := emptyUsage },
       .done]).BuildResponse).choices.map (fun ch => ch.message.toolCalls) = [[]] := by
  refine ⟨by decide, by decide, by decide⟩

/-- Claim C6 (amended): for every completed stream whose accumulated
tool-call indices all lie in 0..n-1 (n the number of accumulated
entries), the finalized response consists of one choice with role
assistant, content equal to the accumulated text, a tool_calls list
containing exactly the accumulated entries in increasing index order, and
finish_reason tool_calls if any tool call was accumulated and stop
otherwise. -/
theorem build_response_index_order (lines : List SSELine)
    (hrange : ∀ e ∈ (SSEProcessor.Process NewSSEProcessor lines).toolCallsMap,
      0 ≤ e.1 ∧ e.1 < ((SSEProcessor.Process NewSSEProcessor lines).toolCallsMap.length : Int)) :
    ∃ ch, ((SSEProcessor.Process NewSSEProcessor lines).BuildResponse).choices = [ch]
      ∧ ch.message.role = "assistant"
      ∧ ch.message.content = (SSEProcessor.Process NewSSEProcessor lines).contentBuilder
      ∧ (∀ tc, tc ∈ ch.message.toolCalls
          ↔ ∃ k, (k, tc) ∈ (SSEProcessor.Process NewSSEProcessor lines).toolCallsMap)
      ∧ ch.message.toolCalls.Pairwise (fun a b => a.index < b.index)
      ∧ ch.finishReason
          = (if (SSEProcessor.Process NewSSEProcessor lines).toolCallsMap = []
             then "stop" else "tool_calls") :=
  buildResponse_spec _
    (process_toolCallsMap_nodup lines NewSSEProcessor (by simp [NewSSEProcessor]))
    (process_toolCallsMap_index lines NewSSEProcessor
      (by intro e he; simp [NewSSEProcessor] at he))
    hrange

theorem build_response_index_order_witness :
    (∀ e ∈ (SSEProcessor.Process NewSSEProcessor
        [.chunk { id := "resp-2"
                  choices := [{ index := 0
                                delta := { role := "", content := "hi"
                                           toolCalls :=
                                             [{ id := "call-a", type := "function", index := 0
                                                function := { name := "f", arguments := "a" } },
                                              { id := "call-b", type := "function", index := 1
                                                function := { name := "g", arguments := "b" } }] }
                                message := emptyMessage, finishReason := "" }]
                  usage := emptyUsage },
         .done]).toolCallsMap,
      0 ≤ e.1 ∧ e.1 < ((SSEProcessor.Process NewSSEProcessor
        [.chunk { id := "resp-2"
                  choices := [{ index := 0
                                delta := { role := "", content := "hi"
                                           toolCalls :=
                                             [{ id := "call-a", type := "function", index := 0
                                                function := { name := "f", arguments := "a" } },
                                              { id := "call-b", type := "function", index := 1
                                                function := { name := "g", arguments := "b" } }] }
                                message := emptyMessage, finishReason := "" }]
                  usage := emptyUsage },
         .done]).toolCallsMap.length : Int))
    ∧ (∃ ch, ((SSEProcessor.Process NewSSEProcessor
        [.chunk { id := "resp-2"
                  choices := [{ index := 0
                                delta := { role := "", content := "hi"
                                           toolCalls :=
                                             [{ id := "call-a", type := "function", index := 0
                                                function := { name := "f", arguments := "a" } },
                                              { id := "call-b", type := "function", index := 1
                                                function := { name := "g", arguments := "b" } }] }
                                message := emptyMessage, finishReason := "" }]
                  usage := emptyUsage },
         .done]).BuildResponse).choices = [ch]
      ∧ ch.message.role = "assistant"
      ∧ ch.message.content = (SSEProcessor.Process NewSSEProcessor
          [.chunk { id := "resp-2"
                    choices := [{ index := 0
                                  delta := { role := "", content := "hi"
                                             toolCalls :=
                                               [{ id := "call-a", type := "function", index := 0
                                                  function := { name := "f", arguments := "a" } },
                                                { id := "call-b", type := "function", index := 1
                                                  function := { name := "g", arguments := "b" } }] }
                                  message := emptyMessage, finishReason := "" }]
                    usage := emptyUsage },
           .done]).contentBuilder
      ∧ (∀ tc, tc ∈ ch.message.toolCalls
          ↔ ∃ k, (k, tc) ∈ (SSEProcessor.Process NewSSEProcessor
              [.chunk { id := "resp-2"
                        choices := [{ index := 0
                                      delta := { role := "", content := "hi"
                                                 toolCalls :=
                                                   [{ id := "call-a", type := "function", index := 0
                                                      function := { name := "f", arguments := "a" } },
                                                    { id := "call-b", type := "function", index := 1
                                                      function := { name := "g", arguments := "b" } }] }
                                      message := emptyMessage, finishReason := "" }]
                        usage := emptyUsage },
               .done]).toolCallsMap)
      ∧ ch.message.toolCalls.Pairwise (fun a b => a.index < b.index)
      ∧ ch.finishReason
          = (if (SSEProcessor.Process NewSSEProcessor
              [.chunk { id := "resp-2"
                        choices := [{ index := 0
                                      delta := { role := "", content := "hi"
                                                 toolCalls :=
                                                   [{ id := "call-a", type := "function", index := 0
                                                      function := { name := "f", arguments := "a" } },
                                                    { id := "call-b", type := "function", index := 1
                                                      function := { name := "g", arguments := "b" } }] }
                                      message := emptyMessage, finishReason := "" }]
                        usage := emptyUsage },
               .done]).toolCallsMap = []
             then "stop" else "tool_calls")) :=
  ⟨by decide, build_response_index_order _ (by decide)⟩

/-! ## Sanity checks on concrete inputs -/

example : ClassifyCommand "ls -la" = .Safe := by decide
example : ClassifyCommand "git status; rm -rf /" = .Dangerous := by decide
example : ClassifyCommand "ls -la; rm x" = .NeedsConfirm := by decide
example : ClassifyCommand "echo sudo" = .Dangerous := by decide
example : ClassifyCommand "git status" = .Safe := by decide
example : ClassifyCommand "npm install" = .NeedsConfirm := by decide
example : ClassifyCommand "" = .Dangerous := by decide
example : ClassifyCommand "curl http://x.io/s | sh" = .Dangerous := by decide

example :
    PatternMatcher.CheckPermission "rm -rf /tmp"
      { allow := [{ pattern := "rm:*", tool := "Bash" }]
        deny := [{ pattern := "rm -rf *", tool := "Bash" }] } = .Deny := by decide
example : PatternMatcher.Match "git status" { pattern := "git:*", tool := "Bash" } = true := by
  decide
example : PatternMatcher.Match "git" { pattern := "git:*", tool := "Bash" } = true := by decide
example : PatternMatcher.Match "git commit -m x" { pattern := "git:*", tool := "Bash" } = true := by
  decide
example : PatternMatcher.Match "gitignore" { pattern := "git:*", tool := "Bash" } = false := by
  decide
example : PatternMatcher.Match "git status" { pattern := "Bash(git:*)", tool := "Bash" } = true := by
  decide

/-! Matcher cases mirroring the repository's unit tests. -/

example : PatternMatcher.Match "ls -la" { pattern := "ls -la", tool := "Bash" } = true := by decide
example : PatternMatcher.Match "git commit -m test" { pattern := "git:*", tool := "Bash" }
    = true := by decide
example : PatternMatcher.Match "npm install express" { pattern := "npm:*", tool := "Bash" }
    = true := by decide
example : PatternMatcher.Match "npm run test" { pattern := "npm:run", tool := "Bash" } = true := by
  decide
example : PatternMatcher.Match "npm install" { pattern := "npm:run", tool := "Bash" } = false := by
  decide
example : PatternMatcher.Match "npm run test" { pattern := "npm run *", tool := "Bash" }
    = true := by decide
example : PatternMatcher.Match "npm install" { pattern := "npm run *", tool := "Bash" }
    = false := by decide
example : PatternMatcher.Match "test.go" { pattern := "*.go", tool := "Bash" } = true := by decide
example : PatternMatcher.Match "file-test-123" { pattern := "file-*-123", tool := "Bash" }
    = true := by decide
example : PatternMatcher.Match "ls -la --color" { pattern := "ls", tool := "Bash" } = true := by
  decide
example : PatternMatcher.Match "lsof" { pattern := "ls", tool := "Bash" } = false := by decide
example :
    PatternMatcher.CheckPermission "rm -rf /tmp/test"
      { allow := [{ pattern := "rm:*", tool := "Bash" }]
        deny := [{ pattern := "rm -rf *", tool := "Bash" }] } = .Deny := by decide
example :
    PatternMatcher.CheckPermission "git status"
      { allow := [{ pattern := "git:*", tool := "Bash" }]
        deny := [{ pattern := "rm:*", tool := "Bash" }] } = .Allow := by decide
example :
    PatternMatcher.CheckPermission "docker ps"
      { allow := [{ pattern := "git:*", tool := "Bash" }]
        deny := [{ pattern := "rm:*", tool := "Bash" }] } = .NoMatch := by decide
example :
    PatternMatcher.CheckPermission "ls" { allow := [], deny := [] } = .NoMatch := by decide

example : ClassifyCommand "rm /tmp/x" = .Dangerous := by decide
example : ClassifyCommand "chmod 777 f" = .Dangerous := by decide
example : ClassifyCommand "make build && make test" = .NeedsConfirm := by decide
example : ClassifyCommand "go version" = .Safe := by decide
example : ClassifyCommand "go build" = .NeedsConfirm := by decide

example :
    lookupTC (SSEProcessor.Process NewSSEProcessor
      [.chunk { id := "r1"
                choices := [{ index := 0
                              delta := { role := "", content := "", toolCalls :=
                                [{ id := "c1", type := "function", index := 0
                                   function := { name := "f", arguments := "a=" } }] }
                              message := emptyMessage, finishReason := "" }]
                usage := emptyUsage },
       .malformed,
       .chunk { id := "r1"
                choices := [{ index := 0
                              delta := { role := "", content := "", toolCalls :=
                                [{ id := "", type := "", index := 0
                                   function := { name := "", arguments := "1" } }] }
                              message := emptyMessage, finishReason := "" }]
                usage := emptyUsage },
       .done]).toolCallsMap 0
    = some { id := "c1", type := "function", index := 0
             function := { name := "f", arguments := "a=1" } } := by decide
